import Mathlib

/-!
Verification of the node-tree core of `JsiDomNode.h`
(`src/package/cpp/rnskia/dom/base/JsiDomNode.h`).

Shallow embedding conventions:
* A node handle is identified by a `Nat` id; a parent's `_children` vector
  (a `std::vector<std::shared_ptr<JsiDomNode>>` compared by pointer identity)
  is embedded as a `List Nat` of child ids.
* The `std::function<void()> _disposeCallback` member is embedded as
  `Option Unit` (present or cleared); the ghost field `callbackFires` counts
  how many times the callback has actually been invoked, which is the
  externally observable effect of `dispose()`.
* `_propsContainer` is a `shared_ptr` that is assigned exactly where the
  source assigns it; the ghost field `containerGeneration` counts how many
  times a fresh container object has been assigned to the pointer, and
  `definePropertiesCalls` counts invocations of the virtual
  `defineProperties` hook (whose base-class default registers nothing).
-/

namespace RNSkia

/-- A property batch handed to `setProps`: name → value pairs, as the JS
reconciler sends them. -/
abbrev PropsBatch := List (String × String)

/-- Modelled from the spec: `NodePropsContainer` (its header is not under
`src/`; only `JsiDomNode.h` is). The spec says the container owns the
materialized property values and that `setProps(batch)` applies the incoming
batch to the schema-defined slots, mutating the container in place. We record
the batches applied to the container, in order. -/
structure NodePropsContainer where
  applied : List PropsBatch
deriving DecidableEq, Repr

/-- Modelled from the spec: `NodePropsContainer::setProps` applies one more
batch to the same container. -/
def NodePropsContainer.setProps (c : NodePropsContainer) (batch : PropsBatch) :
    NodePropsContainer :=
  ⟨c.applied ++ [batch]⟩

/-- State of one `JsiDomNode` (`class JsiDomNode`, JsiDomNode.h:33-246). -/
structure DomNode where
  /-- Member `_type`: immutable type tag set at construction. -/
  type : String
  /-- Member `_children`: ordered ids of the child nodes. -/
  children : List Nat
  /-- Member `_propsContainer`: null until the first `setProps` call. -/
  propsContainer : Option NodePropsContainer
  /-- Member `_disposeCallback`: `some ()` while a callback is registered. -/
  disposeCallback : Option Unit
  /-- Ghost: number of times the dispose callback has been invoked. -/
  callbackFires : Nat
  /-- Ghost: number of fresh container objects assigned to `_propsContainer`. -/
  containerGeneration : Nat
  /-- Ghost: number of invocations of the `defineProperties` hook. -/
  definePropertiesCalls : Nat
deriving DecidableEq, Repr

namespace DomNode

/-- Embeds `JsiDomNode::dispose` (JsiDomNode.h:233-238): if `_disposeCallback` is
non-null, invoke it and set it to null; otherwise do nothing. -/
def dispose (n : DomNode) : DomNode :=
  match n.disposeCallback with
  | some _ =>
      { n with disposeCallback := none, callbackFires := n.callbackFires + 1 }
  | none => n

/-- Call `dispose()` `k` times in a row on the same node. -/
def disposeN : Nat → DomNode → DomNode
  | 0, n => n
  | k + 1, n => disposeN k (dispose n)

/-- Embeds `JsiDomNode::addChild` (JsiDomNode.h:203-205):
`_children.push_back(child)`. -/
def addChild (n : DomNode) (child : Nat) : DomNode :=
  { n with children := n.children ++ [child] }

/-- The list effect of `std::find(_children.begin(), _children.end(), before)`
followed by `_children.insert(position, child)`
(JsiDomNode.h:210-214): walk the vector; insert `child` in front of the first
element equal to `before`; if no element matches, `find` returns `end()` and
the insert appends `child` at the end. -/
def insertBeforeList (l : List Nat) (child before : Nat) : List Nat :=
  match l with
  | [] => [child]
  | c :: rest =>
      if c = before then child :: c :: rest
      else c :: insertBeforeList rest child before

/-- Embeds `JsiDomNode::insertChildBefore` (JsiDomNode.h:210-214). -/
def insertChildBefore (n : DomNode) (child before : Nat) : DomNode :=
  { n with children := insertBeforeList n.children child before }

/-- Embeds `JsiDomNode::removeChild` (JsiDomNode.h:219-226):
`_children.erase(std::remove_if(..., node == child), _children.end())`
erases every element equal to `child` (the erase/`remove_if` idiom keeps
exactly the elements for which the predicate is false, in order), then
`child->dispose()` is called unconditionally. The result pairs the parent's
new state with the child's new state. -/
def removeChild (parent : DomNode) (childId : Nat) (child : DomNode) :
    DomNode × DomNode :=
  ({ parent with children := parent.children.filter (fun x => x != childId) },
   dispose child)

/-- Embeds `JsiDomNode::setProps` (JsiDomNode.h:179-191): if `_propsContainer` is
null, assign a fresh container and invoke the `defineProperties` hook (the
base-class default, JsiDomNode.h:160, registers nothing); then forward the
batch to `_propsContainer->setProps`. -/
def setProps (n : DomNode) (batch : PropsBatch) : DomNode :=
  match n.propsContainer with
  | none =>
      { n with
          propsContainer := some (NodePropsContainer.setProps ⟨[]⟩ batch),
          containerGeneration := n.containerGeneration + 1,
          definePropertiesCalls := n.definePropertiesCalls + 1 }
  | some c =>
      { n with propsContainer := some (c.setProps batch) }

/-- A sequence of `setProps` calls, first batch first. -/
def setPropsSeq (n : DomNode) (batches : List PropsBatch) : DomNode :=
  batches.foldl setProps n

end DomNode

/-- A node as the JS constructor leaves it before any mutation, with the
dispose callback registered by the dependency coordinator. -/
def mkNode (t : String) (cs : List Nat) : DomNode :=
  { type := t, children := cs, propsContainer := none,
    disposeCallback := some (), callbackFires := 0,
    containerGeneration := 0, definePropertiesCalls := 0 }

/-- The children-list behavior claimed for `removeChild`: remove only the
first occurrence of the child id, keeping later duplicates. Stated from the
spec's words for comparison with the source's `removeChild`. -/
def removeFirstOccurrence : List Nat → Nat → List Nat
  | [], _ => []
  | c :: rest, cid => if c = cid then rest else c :: removeFirstOccurrence rest cid

/-- The failure-surfacing `removeChild` the spec's propagation policy
demands: a miss is an explicit `StructuralError` rather than a silent no-op.
Stated from the spec's words for comparison with the source's `removeChild`. -/
def removeChildStrict (parent : DomNode) (childId : Nat) :
    Except String DomNode :=
  if childId ∈ parent.children then
    Except.ok { parent with children := removeFirstOccurrence parent.children childId }
  else
    Except.error "StructuralError"

/-- The failure-surfacing `insertChildBefore` the spec's propagation policy
demands: an absent marker is an explicit `StructuralError`. Stated from the
spec's words for comparison with the source's `insertChildBefore`. -/
def insertChildBeforeStrict (parent : DomNode) (child before : Nat) :
    Except String DomNode :=
  if before ∈ parent.children then
    Except.ok { parent with children := DomNode.insertBeforeList parent.children child before }
  else
    Except.error "StructuralError"

/-! ## Helper lemmas -/

/-- After one `dispose` the callback slot is empty, whatever it held. -/
theorem dispose_disposeCallback_eq_none (n : DomNode) :
    n.dispose.disposeCallback = none := by
  cases h : n.disposeCallback <;> simp [DomNode.dispose, h]

/-- Applying `dispose` to a node whose callback is already cleared changes nothing. -/
theorem dispose_of_cleared (n : DomNode) (h : n.disposeCallback = none) :
    n.dispose = n := by
  simp [DomNode.dispose, h]

/-- Iterated `dispose` on a node whose callback is cleared changes nothing. -/
theorem disposeN_of_cleared (k : Nat) (n : DomNode)
    (h : n.disposeCallback = none) : DomNode.disposeN k n = n := by
  induction k generalizing n with
  | zero => rfl
  | succ m ih =>
      show DomNode.disposeN m n.dispose = n
      rw [dispose_of_cleared n h]
      exact ih n h

/-- At least one `dispose` call collapses to exactly one. -/
theorem disposeN_succ (k : Nat) (n : DomNode) :
    DomNode.disposeN (k + 1) n = n.dispose := by
  show DomNode.disposeN k n.dispose = n.dispose
  exact disposeN_of_cleared k n.dispose (dispose_disposeCallback_eq_none n)

/-- Running `insertBeforeList` with a marker that does not occur appends at the end. -/
theorem insertBeforeList_of_not_mem (l : List Nat) (child before : Nat)
    (h : before ∉ l) :
    DomNode.insertBeforeList l child before = l ++ [child] := by
  induction l with
  | nil => rfl
  | cons a rest ih =>
      have ha : a ≠ before := fun e => h (by simp [e])
      have hr : before ∉ rest := fun hm => h (List.mem_cons_of_mem a hm)
      simp [DomNode.insertBeforeList, ha, ih hr]

/-- Running `insertBeforeList` places the child right before the first occurrence of
the marker. -/
theorem insertBeforeList_of_mem (l1 l2 : List Nat) (child before : Nat)
    (h : before ∉ l1) :
    DomNode.insertBeforeList (l1 ++ before :: l2) child before =
      l1 ++ child :: before :: l2 := by
  induction l1 with
  | nil => simp [DomNode.insertBeforeList]
  | cons a rest ih =>
      have ha : a ≠ before := fun e => h (by simp [e])
      have hr : before ∉ rest := fun hm => h (List.mem_cons_of_mem a hm)
      simp [DomNode.insertBeforeList, ha, ih hr]

/-- Filtering away an id that never occurs leaves the list unchanged. -/
theorem filter_bne_of_not_mem (l : List Nat) (cid : Nat) (h : cid ∉ l) :
    l.filter (fun x => x != cid) = l := by
  induction l with
  | nil => rfl
  | cons a rest ih =>
      have ha : a ≠ cid := fun e => h (by simp [e])
      have hr : cid ∉ rest := fun hm => h (List.mem_cons_of_mem a hm)
      have hb : (a != cid) = true := bne_iff_ne.mpr ha
      simp [List.filter, hb, ih hr]

/-- Filtering away one id does not change the multiplicity of any other id. -/
theorem count_filter_ne (l : List Nat) (cid x : Nat) (hx : x ≠ cid) :
    (l.filter (fun y => y != cid)).count x = l.count x := by
  induction l with
  | nil => rfl
  | cons a rest ih =>
      by_cases hax : a = cid
      · have hb : (a != cid) = false := by simp [hax]
        have hxa : (a == x) = false := by
          subst hax
          simpa using fun e => hx e.symm
        simp [List.filter, hb, List.count_cons, hxa, ih]
      · have hb : (a != cid) = true := bne_iff_ne.mpr hax
        simp [List.filter, hb, List.count_cons, ih]

/-- Applying `setProps` to a node whose container already exists only forwards the
batch into that container. -/
theorem setProps_some (n : DomNode) (c : NodePropsContainer) (batch : PropsBatch)
    (h : n.propsContainer = some c) :
    n.setProps batch = { n with propsContainer := some (c.setProps batch) } := by
  simp [DomNode.setProps, h]

/-- Unfolding one step of `setPropsSeq`. -/
theorem setPropsSeq_cons (n : DomNode) (b : PropsBatch) (rest : List PropsBatch) :
    n.setPropsSeq (b :: rest) = (n.setProps b).setPropsSeq rest := rfl

/-- Once the container exists, a sequence of `setProps` calls never assigns a
new container, never re-invokes `defineProperties`, and appends every batch to
the existing container. -/
theorem setPropsSeq_some (n : DomNode) (c : NodePropsContainer)
    (batches : List PropsBatch) (h : n.propsContainer = some c) :
    (n.setPropsSeq batches).containerGeneration = n.containerGeneration ∧
    (n.setPropsSeq batches).definePropertiesCalls = n.definePropertiesCalls ∧
    (n.setPropsSeq batches).propsContainer = some ⟨c.applied ++ batches⟩ := by
  induction batches generalizing n c with
  | nil => simp [DomNode.setPropsSeq, h]
  | cons b rest ih =>
      rw [setPropsSeq_cons]
      have h1 := setProps_some n c b h
      have h2 := ih (n.setProps b) (c.setProps b) (by rw [h1])
      rw [h1] at h2 ⊢
      simpa [NodePropsContainer.setProps, List.append_assoc] using h2

/-! ## Claim theorems -/

/-- C1: calling `dispose()` any number `N ≥ 1` of times on a node with a
registered callback fires the callback exactly once (the observable fire count
rises by exactly one), clears the callback, and the whole run is
indistinguishable from a single `dispose()` call, so every later call is a
no-op. -/
theorem dispose_fires_exactly_once (n : DomNode) (N : Nat) (hN : 1 ≤ N)
    (hcb : n.disposeCallback.isSome) :
    DomNode.disposeN N n = n.dispose ∧
    (DomNode.disposeN N n).callbackFires = n.callbackFires + 1 ∧
    (DomNode.disposeN N n).disposeCallback = none := by
  obtain ⟨u, hu⟩ := Option.isSome_iff_exists.mp hcb
  obtain ⟨k, rfl⟩ : ∃ k, N = k + 1 := ⟨N - 1, (Nat.succ_pred_eq_of_pos hN).symm⟩
  rw [disposeN_succ]
  exact ⟨rfl, by simp [DomNode.dispose, hu], dispose_disposeCallback_eq_none n⟩

/-- Witness for C1 at a concrete node and `N = 3`. -/
theorem dispose_fires_exactly_once_witness :
    DomNode.disposeN 3 (mkNode "group" [1]) = (mkNode "group" [1]).dispose ∧
    (DomNode.disposeN 3 (mkNode "group" [1])).callbackFires =
      (mkNode "group" [1]).callbackFires + 1 ∧
    (DomNode.disposeN 3 (mkNode "group" [1])).disposeCallback = none :=
  dispose_fires_exactly_once (mkNode "group" [1]) 3 (by decide) (by decide)

/-- C2: `removeChild` always applies `dispose` to the child exactly once,
whether or not the child id occurs in the parent's children list; when the
child still has a registered callback, its fire count therefore rises by
exactly one and the callback is cleared. -/
theorem removeChild_disposes_child (p : DomNode) (cid : Nat) (c : DomNode) :
    (p.removeChild cid c).2 = c.dispose ∧
    (c.disposeCallback.isSome →
      (p.removeChild cid c).2.callbackFires = c.callbackFires + 1 ∧
      (p.removeChild cid c).2.disposeCallback = none) := by
  refine ⟨rfl, fun h => ?_⟩
  obtain ⟨u, hu⟩ := Option.isSome_iff_exists.mp h
  exact ⟨by simp [DomNode.removeChild, DomNode.dispose, hu],
         dispose_disposeCallback_eq_none c⟩

/-- Witness for C2 at a concrete parent and an absent child id. -/
theorem removeChild_disposes_child_witness :
    ((mkNode "group" [1, 2]).removeChild 3 (mkNode "circle" [])).2.callbackFires =
      (mkNode "circle" []).callbackFires + 1 :=
  ((removeChild_disposes_child (mkNode "group" [1, 2]) 3
      (mkNode "circle" [])).2 (by decide)).1

/-- C3 as stated is false on the source: `removeChild` uses the
erase/`remove_if` idiom, which erases every occurrence of the child, not just
the first. On a parent with children `[5, 5]`, removing `5` leaves `[]`,
while removing only the first occurrence would leave `[5]`. -/
theorem removeChild_first_occurrence_cex :
    ((mkNode "group" [5, 5]).removeChild 5 (mkNode "circle" [])).1.children = [] ∧
    removeFirstOccurrence [5, 5] 5 = [5] ∧
    ((mkNode "group" [5, 5]).removeChild 5 (mkNode "circle" [])).1.children ≠
      removeFirstOccurrence [5, 5] 5 := by
  decide

/-- C3 amended: `removeChild` removes every occurrence of the child from the
children sequence; the result contains no occurrence of the child, is an
order-preserving subsequence of the previous children, and the multiplicity
of every other child is unchanged. -/
theorem removeChild_removes_all_occurrences (p : DomNode) (cid : Nat)
    (c : DomNode) :
    cid ∉ (p.removeChild cid c).1.children ∧
    List.Sublist (p.removeChild cid c).1.children p.children ∧
    ∀ x, x ≠ cid →
      (p.removeChild cid c).1.children.count x = p.children.count x := by
  refine ⟨?_, ?_, ?_⟩
  · simp [DomNode.removeChild, List.mem_filter]
  · exact List.filter_sublist p.children
  · intro x hx
    exact count_filter_ne p.children cid x hx

/-- Witness for C3's amended claim on children `[7, 3, 7]`. -/
theorem removeChild_removes_all_occurrences_witness :
    7 ∉ ((mkNode "group" [7, 3, 7]).removeChild 7 (mkNode "circle" [])).1.children ∧
    ((mkNode "group" [7, 3, 7]).removeChild 7 (mkNode "circle" [])).1.children.count 3 =
      (mkNode "group" [7, 3, 7]).children.count 3 :=
  ⟨(removeChild_removes_all_occurrences (mkNode "group" [7, 3, 7]) 7
      (mkNode "circle" [])).1,
   (removeChild_removes_all_occurrences (mkNode "group" [7, 3, 7]) 7
      (mkNode "circle" [])).2.2 3 (by decide)⟩

/-- C5: `addChild` appends the child as the last element of the children
sequence; the previous children are the unchanged prefix, in their prior
order. -/
theorem addChild_appends (p : DomNode) (c : Nat) :
    (p.addChild c).children.getLast? = some c ∧
    (p.addChild c).children.dropLast = p.children ∧
    (p.addChild c).children.length = p.children.length + 1 := by
  refine ⟨?_, ?_, ?_⟩ <;> simp [DomNode.addChild]

/-- C4: when the marker occurs among the children (first occurrence splitting
the list as `l1 ++ before :: l2` with `before ∉ l1`), `insertChildBefore`
places the child immediately in front of that first occurrence, leaving every
other child in its prior relative position. -/
theorem insertChildBefore_inserts_before_first (p : DomNode)
    (child before : Nat) (l1 l2 : List Nat)
    (h : p.children = l1 ++ before :: l2) (hfirst : before ∉ l1) :
    (p.insertChildBefore child before).children = l1 ++ child :: before :: l2 := by
  simp [DomNode.insertChildBefore, h,
        insertBeforeList_of_mem l1 l2 child before hfirst]

/-- Witness for C4 on the spec's scenario: tree `A[B, C]` with `B = 1`,
`C = 2`; inserting `D = 3` before `C` yields `[B, D, C]`. -/
theorem insertChildBefore_inserts_before_first_witness :
    ((mkNode "A" [1, 2]).insertChildBefore 3 2).children = [1, 3, 2] :=
  insertChildBefore_inserts_before_first (mkNode "A" [1, 2]) 3 2 [1] []
    (by decide) (by decide)

/-- C6: on a node whose container does not exist yet, a nonempty sequence of
`setProps` calls assigns exactly one fresh container and invokes the
`defineProperties` hook exactly once, on that first call; every later call
appends into that same container (all batches accumulate in it, in order),
never replacing it. -/
theorem setProps_container_once (n : DomNode) (b : PropsBatch)
    (rest : List PropsBatch) (h : n.propsContainer = none) :
    (n.setPropsSeq (b :: rest)).definePropertiesCalls =
      n.definePropertiesCalls + 1 ∧
    (n.setPropsSeq (b :: rest)).containerGeneration =
      n.containerGeneration + 1 ∧
    (n.setPropsSeq (b :: rest)).propsContainer = some ⟨b :: rest⟩ := by
  have h1 : n.setProps b =
      { n with
          propsContainer := some ⟨[b]⟩,
          containerGeneration := n.containerGeneration + 1,
          definePropertiesCalls := n.definePropertiesCalls + 1 } := by
    simp [DomNode.setProps, h, NodePropsContainer.setProps]
  have h2 := setPropsSeq_some (n.setProps b) ⟨[b]⟩ rest (by rw [h1])
  rw [setPropsSeq_cons]
  rw [h1] at h2 ⊢
  exact ⟨h2.2.1, h2.1, h2.2.2⟩

/-- Witness for C6: a fresh node receiving two property batches. -/
theorem setProps_container_once_witness :
    ((mkNode "circle" []).setPropsSeq
        ([("r", "10")] :: [[("r", "20"), ("cx", "5")]])).definePropertiesCalls =
      (mkNode "circle" []).definePropertiesCalls + 1 ∧
    ((mkNode "circle" []).setPropsSeq
        ([("r", "10")] :: [[("r", "20"), ("cx", "5")]])).containerGeneration =
      (mkNode "circle" []).containerGeneration + 1 ∧
    ((mkNode "circle" []).setPropsSeq
        ([("r", "10")] :: [[("r", "20"), ("cx", "5")]])).propsContainer =
      some ⟨[("r", "10")] :: [[("r", "20"), ("cx", "5")]]⟩ :=
  setProps_container_once (mkNode "circle" []) [("r", "10")]
    [[("r", "20"), ("cx", "5")]] rfl

/-- C7: applying a property batch never touches the children list, whatever
the node's current children are, and the same holds for any sequence of
batches. -/
theorem setProps_preserves_children (n : DomNode) (batch : PropsBatch)
    (batches : List PropsBatch) :
    (n.setProps batch).children = n.children ∧
    (n.setPropsSeq batches).children = n.children := by
  have one : ∀ m : DomNode, ∀ b : PropsBatch, (m.setProps b).children = m.children := by
    intro m b
    cases hm : m.propsContainer <;> simp [DomNode.setProps, hm]
  refine ⟨one n batch, ?_⟩
  induction batches generalizing n with
  | nil => rfl
  | cons b rest ih =>
      rw [setPropsSeq_cons, ih (n.setProps b), one n b]

/-- C8 as stated is false on the source: structural misses are silently
absorbed, not surfaced. At a parent with children `[1, 2]`, removing the
absent id `3` yields an ordinary result with the list unchanged (while still
firing the child's disposal), and inserting before the absent marker `3`
yields an ordinary result that appends at the end; the failure-surfacing
variants the spec demands would report a `StructuralError` on both inputs. -/
theorem structural_miss_no_failure_cex :
    removeChildStrict (mkNode "parent" [1, 2]) 3 =
      Except.error "StructuralError" ∧
    ((mkNode "parent" [1, 2]).removeChild 3 (mkNode "circle" [])).1.children =
      [1, 2] ∧
    ((mkNode "parent" [1, 2]).removeChild 3 (mkNode "circle" [])).2.callbackFires = 1 ∧
    insertChildBeforeStrict (mkNode "parent" [1, 2]) 9 3 =
      Except.error "StructuralError" ∧
    ((mkNode "parent" [1, 2]).insertChildBefore 9 3).children = [1, 2, 9] :=
  ⟨rfl, rfl, rfl, rfl, rfl⟩

/-- C8 amended: structural misses never surface a failure; both operations
return ordinary results. `removeChild` with an absent child leaves the
children list unchanged and still disposes the child; `insertChildBefore`
with an absent marker appends the child at the end. -/
theorem structural_miss_silently_absorbed (p : DomNode)
    (cid child before : Nat) (c : DomNode)
    (h1 : cid ∉ p.children) (h2 : before ∉ p.children) :
    (p.removeChild cid c).1.children = p.children ∧
    (p.removeChild cid c).2 = c.dispose ∧
    (p.insertChildBefore child before).children = p.children ++ [child] := by
  refine ⟨?_, rfl, ?_⟩
  · exact filter_bne_of_not_mem p.children cid h1
  · simp [DomNode.insertChildBefore,
          insertBeforeList_of_not_mem p.children child before h2]

/-- Witness for C8's amended claim at a parent with children `[1, 2]`. -/
theorem structural_miss_silently_absorbed_witness :
    ((mkNode "parent" [1, 2]).removeChild 3 (mkNode "circle" [])).1.children =
      (mkNode "parent" [1, 2]).children ∧
    ((mkNode "parent" [1, 2]).removeChild 3 (mkNode "circle" [])).2 =
      (mkNode "circle" []).dispose ∧
    ((mkNode "parent" [1, 2]).insertChildBefore 9 4).children =
      (mkNode "parent" [1, 2]).children ++ [9] :=
  structural_miss_silently_absorbed (mkNode "parent" [1, 2]) 3 9 4
    (mkNode "circle" []) (by decide) (by decide)

/-- C9: when the marker id does not occur among the children,
`insertChildBefore` appends the child at the end of the children sequence
(`std::find` returns the end iterator and the insert lands there); it never
fails. -/
theorem insertChildBefore_absent_marker_appends (p : DomNode)
    (child before : Nat) (h : before ∉ p.children) :
    (p.insertChildBefore child before).children = p.children ++ [child] := by
  simp [DomNode.insertChildBefore,
        insertBeforeList_of_not_mem p.children child before h]

/-- Witness for C9: marker `9` is absent from `[1, 2]`, so `3` is appended. -/
theorem insertChildBefore_absent_marker_appends_witness :
    ((mkNode "group" [1, 2]).insertChildBefore 3 9).children =
      (mkNode "group" [1, 2]).children ++ [3] :=
  insertChildBefore_absent_marker_appends (mkNode "group" [1, 2]) 3 9
    (by decide)

/-- C10: `addChild` performs no membership or parent check and never fails:
it raises the child's multiplicity by one unconditionally, so adding the same
id twice yields two occurrences in one parent, and adding the same id to two
different parents puts it in both children lists. -/
theorem addChild_unconditional (p q : DomNode) (c : Nat) :
    (p.addChild c).children.count c = p.children.count c + 1 ∧
    ((p.addChild c).addChild c).children.count c = p.children.count c + 2 ∧
    c ∈ (p.addChild c).children ∧
    c ∈ (q.addChild c).children := by
  refine ⟨?_, ?_, ?_, ?_⟩ <;>
    simp [DomNode.addChild, List.count_append]

end RNSkia
